import Mathlib

/-!
# WeightScale-ESP32-BLE: the acquisition-and-notification pipeline

A shallow embedding of `src/main.cpp`: the sensor filter `get_weigh`, the
connection callbacks `onConnect` / `onDisconnect`, the measurement encoder
`prepare_weight_for_ble` and the notification driver `loop`.

Modelling conventions.

* A finite `float` / `double` value is the rational number it denotes (`ℚ`).
  The program only negates, compares, truncates and adds `0.5` to such values,
  and each of these operations is exact on the values concerned, so no rounding
  is lost. NaN and the infinities are outside the model.
* `long` is `Int`; `uint16_t` and `unsigned char` are `Nat` reduced modulo
  `2^16` and `2^8` at the point where the source narrows.
* The radio stack and the serial port are observed through a trace of `Event`s.
* The load-cell driver is an input: each call of `get_weigh` is given what
  `LoadCell.update()` answers and what `LoadCell.getData()` would answer.
* The callbacks and `loop` are atomic steps of an interleaving (`Step`).
-/

namespace WeightScale

/-! ## Numeric conversions -/

/-- Modelled from the spec: the `abs` of the Arduino core (`Arduino.h` is not among the
sources), the spec's "absolute value" of a floating-point weight, written the way the core
writes it, `((x)>0?(x):-(x))`; `fabs_eq_abs` shows it is the mathematical absolute value. -/
def fabs (x : ℚ) : ℚ := if x > 0 then x else -x

/-- Conversion of a floating value to an integer type discards the fractional part
(truncation toward zero). -/
def truncate (x : ℚ) : Int := if 0 ≤ x then ⌊x⌋ else ⌈x⌉

/-- The implicit conversion `float → long` at the call
`prepare_weight_for_ble(abs(weightData))`. `long` has 32 bits on the target; the conversion
is defined by the language for values whose truncation fits, which is the range all
statements below about concrete weights stay in. -/
def floatToLong (x : ℚ) : Int := truncate x

/-- The cast `(uint16_t) x` of a `double`: truncation, kept to 16 bits. -/
def toUInt16 (x : ℚ) : Nat := (truncate x % 65536).toNat

/-- The cast `(unsigned char) n` of an unsigned integer: the low 8 bits. -/
def toUChar (n : Nat) : Nat := n % 256

/-! ## Measurement encoder (`prepare_weight_for_ble`, lines 155-190) -/

/-- Events observable at the collaborators: the radio stack (`setValue`, `notify`,
`startAdvertising`), the scheduler (`delay`) and the serial port (`println`). -/
inductive Event where
  | setValue (value : List Nat)
  | notify
  | startAdvertising
  | delay (ms : Nat)
  | println (msg : String)
  deriving DecidableEq

/-- The local `flags` after the four `flags |= 0x0 << i` statements. -/
def flags : Nat := ((((0 ||| (0 <<< 0)) ||| (0 <<< 1)) ||| (0 <<< 2)) ||| (0 <<< 3)) % 256

/-- The local `newVal`: `(uint16_t)((weightInGram / 5) + 0.5)`. The quotient is the
division of a `long` by an `int` (truncating), converted to `double` for the sum. -/
def newVal (weightInGram : Int) : Nat :=
  toUInt16 (((Int.tdiv weightInGram 5 : Int) : ℚ) + 0.5)

/-- The local array `bytes` after the three assignments. -/
def bytes (weightInGram : Int) : List Nat :=
  [flags, toUChar (newVal weightInGram), toUChar (newVal weightInGram >>> 8)]

/-- The value of `sizeof(bytes)` for `unsigned char bytes[3]`. -/
def sizeofBytes : Nat := 3

/-- The encoder: builds the payload and publishes it, `setValue(bytes, sizeof(bytes))`
followed by `notify()`. -/
def prepare_weight_for_ble (weightInGram : Int) : List Event :=
  [Event.setValue ((bytes weightInGram).take sizeofBytes), Event.notify]

/-! ## Program state -/

/-- The globals `deviceConnected`, `oldDeviceConnected` and the two `static` locals of
`get_weigh`. -/
structure State where
  deviceConnected : Bool
  oldDeviceConnected : Bool
  newDataReady : Bool
  newWeigh : ℚ
  deriving DecidableEq

/-- The state after the initialisers: both flags `false`, `newDataReady = false`,
`newWeigh = 0.0`. -/
def initial : State :=
  { deviceConnected := false, oldDeviceConnected := false, newDataReady := false, newWeigh := 0 }

/-- What the load-cell driver answers during one call of `get_weigh`. -/
structure LoadCell where
  update : Bool
  getData : ℚ
  deriving DecidableEq

/-! ## Sensor filter (`get_weigh`, lines 194-214) -/

/-- The sensor filter: returns the new state and the returned `newWeigh`. -/
def get_weigh (s : State) (lc : LoadCell) : State × ℚ :=
  let s1 : State := if lc.update then { s with newDataReady := true } else s
  if s1.newDataReady then
    let w : ℚ := lc.getData
    let w : ℚ := if fabs w < 20 then 0 else w
    ({ s1 with newWeigh := w, newDataReady := false }, w)
  else
    (s1, s1.newWeigh)

/-- Consecutive calls of `get_weigh`, one per load-cell answer: the state after the last
call and the values returned, in order. -/
def get_weigh_calls : State → List LoadCell → State × List ℚ
  | s, [] => (s, [])
  | s, lc :: rest =>
      ((get_weigh_calls (get_weigh s lc).1 rest).1,
        (get_weigh s lc).2 :: (get_weigh_calls (get_weigh s lc).1 rest).2)

/-! ## Connection callbacks (`MyServerCallbacks`, lines 45-53) -/

/-- The attach signal: `deviceConnected = true`. -/
def onConnect (s : State) : State := { s with deviceConnected := true }

/-- The detach signal: `deviceConnected = false`. -/
def onDisconnect (s : State) : State := { s with deviceConnected := false }

/-! ## Notification driver (`loop`, lines 82-104) -/

/-- The outcome of one driver tick: the state after it, the value `weightData` returned by
`get_weigh`, the events emitted, and which of the two edge branches ran. -/
structure Tick where
  state : State
  weightData : ℚ
  events : List Event
  disconnecting : Bool
  connecting : Bool
  deriving DecidableEq

/-- One execution of `loop`. -/
def loop (s : State) (lc : LoadCell) : Tick :=
  let r := get_weigh s lc
  let s1 : State := r.1
  let weightData : ℚ := r.2
  let ev1 : List Event :=
    if s1.deviceConnected then prepare_weight_for_ble (floatToLong (fabs weightData)) else []
  let disconnecting : Bool := !s1.deviceConnected && s1.oldDeviceConnected
  let ev2 : List Event :=
    if disconnecting then
      [Event.delay 500, Event.startAdvertising, Event.println "Start advertising...\n"]
    else []
  let s2 : State :=
    if disconnecting then { s1 with oldDeviceConnected := s1.deviceConnected } else s1
  let connecting : Bool := s2.deviceConnected && !s2.oldDeviceConnected
  let s3 : State :=
    if connecting then { s2 with oldDeviceConnected := s2.deviceConnected } else s2
  { state := s3, weightData := weightData, events := ev1 ++ ev2 ++ [Event.delay 10],
    disconnecting := disconnecting, connecting := connecting }

/-! ## Interleavings of signals and ticks -/

/-- An atomic step of a run: a callback of the radio stack or one driver tick together with
what the load cell answers in it. -/
inductive Step where
  | onConnect
  | onDisconnect
  | loop (lc : LoadCell)
  deriving DecidableEq

/-- One entry of the execution log. -/
structure Record where
  pre : State
  step : Step
  post : State
  tick : Option Tick
  deriving DecidableEq

/-- Executes one step. -/
def stepRecord (s : State) : Step → Record
  | Step.onConnect => { pre := s, step := Step.onConnect, post := onConnect s, tick := none }
  | Step.onDisconnect =>
      { pre := s, step := Step.onDisconnect, post := onDisconnect s, tick := none }
  | Step.loop lc =>
      { pre := s, step := Step.loop lc, post := (loop s lc).state, tick := some (loop s lc) }

/-- The execution log of a run from `s`. -/
def exec : State → List Step → List Record
  | _, [] => []
  | s, st :: rest => stepRecord s st :: exec (stepRecord s st).post rest

/-- The state a run ends in. -/
def run : State → List Step → State
  | s, [] => s
  | s, st :: rest => run (stepRecord s st).post rest

/-- All events of a run, in order. -/
def trace (s : State) (steps : List Step) : List Event :=
  (exec s steps).flatMap fun r => match r.tick with
    | some t => t.events
    | none => []

/-- The values returned by `get_weigh`, one per tick. -/
def weights (s : State) (steps : List Step) : List ℚ :=
  (exec s steps).filterMap fun r => r.tick.map fun t => t.weightData

/-- Whether an event belongs to the publish primitive. -/
def isPublish : Event → Bool
  | Event.setValue _ => true
  | Event.notify => true
  | _ => false

/-- The publish events among a list of events. -/
def published (evs : List Event) : List Event := evs.filter isPublish

/-- Number of `startAdvertising` calls of a run. -/
def advertiseCalls (s : State) (steps : List Step) : Nat :=
  (trace s steps).count Event.startAdvertising

/-- An attach or detach signal. -/
inductive Signal where
  | attach
  | detach
  deriving DecidableEq

/-- The step a signal is delivered as. -/
def Signal.toStep : Signal → Step
  | Signal.attach => Step.onConnect
  | Signal.detach => Step.onDisconnect

/-- The interleaving that runs one tick after each signal. -/
def tickAfterEach : List (Signal × LoadCell) → List Step
  | [] => []
  | (g, lc) :: rest => g.toStep :: Step.loop lc :: tickAfterEach rest

/-- For each tick of a log, whether it observed an edge: it took the disconnecting or the
connecting branch. -/
def edgeFlags (log : List Record) : List Bool :=
  log.filterMap fun r => r.tick.map fun t => t.disconnecting || t.connecting

/-- For each tick of a log, whether it changed `oldDeviceConnected`. -/
def oldUpdatedFlags (log : List Record) : List Bool :=
  log.filterMap fun r =>
    r.tick.map fun t => t.state.oldDeviceConnected != r.pre.oldDeviceConnected

/-- For each signal of a log, whether it changed the level `deviceConnected`. -/
def levelChangedFlags (log : List Record) : List Bool :=
  log.filterMap fun r => match r.tick with
    | none => some (r.post.deviceConnected != r.pre.deviceConnected)
    | some _ => none

/-- For each signal of a log, the level `deviceConnected` after it. -/
def levelsAfterSignals (log : List Record) : List Bool :=
  log.filterMap fun r => match r.tick with
    | none => some r.post.deviceConnected
    | some _ => none

/-- The tick in which the load cell delivers the raw reading `r` as new data. -/
def tickWithReading (r : ℚ) : Step := Step.loop { update := true, getData := r }

/-- The end-to-end scenario: an attach signal, one tick per raw reading delivered as new
data, a detach signal, then further ticks with no signal. -/
def scenario (rs : List ℚ) (after : List LoadCell) : List Step :=
  Step.onConnect :: (rs.map tickWithReading ++ Step.onDisconnect :: after.map Step.loop)

/-! ## The specification's words -/

/-- The spec's wire unit: `round(weightGrams / 5)` under round-half-up, that is
`floor(w/5 + 0.5)`. -/
def specUnit (w : ℚ) : Int := ⌊w / 5 + 1 / 2⌋

/-- The spec's noise gate: `0` below the 20 g floor, the reading itself otherwise. -/
def gate (r : ℚ) : ℚ := if |r| < 20 then 0 else r

/-- The spec's decoder: `5 * (byte1 + 256 * byte2)`. -/
def decode (payload : List Nat) : Nat := 5 * (payload.getD 1 0 + 256 * payload.getD 2 0)

/-- The payload published for a filtered weight `w`: `loop` passes `abs(w)`, converted to
`long`, to the encoder, which hands the first `sizeof(bytes)` bytes to `setValue`. -/
def encode (w : ℚ) : List Nat := (bytes (floatToLong (fabs w))).take sizeofBytes

/-! ## Lemmas on the numeric conversions -/

theorem fabs_eq_abs (x : ℚ) : fabs x = |x| := by
  unfold fabs
  split_ifs with h
  · exact (abs_of_pos h).symm
  · exact (abs_of_nonpos (not_lt.mp h)).symm

theorem fabs_neg (x : ℚ) : fabs (-x) = fabs x := by
  rw [fabs_eq_abs, fabs_eq_abs, abs_neg]

theorem fabs_nonneg (x : ℚ) : 0 ≤ fabs x := by
  rw [fabs_eq_abs]; exact abs_nonneg x

theorem truncate_of_nonneg {x : ℚ} (h : 0 ≤ x) : truncate x = ⌊x⌋ := by
  simp [truncate, h]

theorem floor_add_half (q : Int) : ⌊((q : Int) : ℚ) + 0.5⌋ = q := by
  rw [Int.floor_int_add]
  have : ⌊(0.5 : ℚ)⌋ = 0 := by
    rw [Int.floor_eq_iff]; norm_num
  omega

theorem newVal_of_nonneg {w : Int} (h0 : 0 ≤ w) (h1 : w / 5 ≤ 65535) :
    newVal w = (w / 5).toNat := by
  have hq : 0 ≤ w / 5 := Int.ediv_nonneg h0 (by norm_num)
  have ht : Int.tdiv w 5 = w / 5 := Int.tdiv_eq_ediv h0 (by norm_num)
  have hnn : (0 : ℚ) ≤ ((w / 5 : Int) : ℚ) + 0.5 := by
    have : (0 : ℚ) ≤ ((w / 5 : Int) : ℚ) := by exact_mod_cast hq
    linarith [show (0:ℚ) ≤ 0.5 by norm_num]
  unfold newVal toUInt16
  rw [ht, truncate_of_nonneg hnn, floor_add_half]
  congr 1
  omega

theorem newVal_lt (w : Int) : newVal w < 65536 := by
  unfold newVal toUInt16
  omega

theorem flags_eq : flags = 0 := by decide

theorem bytes_eq (w : Int) :
    (bytes w).take sizeofBytes = [0, newVal w % 256, newVal w / 256] := by
  have h := newVal_lt w
  simp only [bytes, sizeofBytes, flags_eq, toUChar, List.take_succ_cons, List.take_zero,
    Nat.shiftRight_eq_div_pow]
  congr 2
  congr 1
  omega

/-! ## Measurement encoder -/

/-- C1: the encoder does not round to nearest. For the filtered weight 23 g the unit written
is 4 where round-half-up of 23/5 is 5, and for 13 g it is 2 where round-half-up gives 3; the
decoded weight of 23 g is 20 g, not round(23/5)*5 = 25 g. -/
theorem C1_encoder_truncates :
    newVal (floatToLong (fabs 23)) = 4 ∧ specUnit 23 = 5 ∧
    newVal (floatToLong (fabs 13)) = 2 ∧ specUnit 13 = 3 ∧
    encode 23 = [0, 4, 0] ∧ decode (encode 23) = 20 ∧ specUnit 23 * 5 = 25 ∧
    newVal (floatToLong (fabs 1000)) = 200 ∧ specUnit 1000 = 200 := by
  with_unfolding_all decide

/-- C2: for a weight that is an exact multiple of 5 grams, w = 5k with k at most 65535,
prepare_weight_for_ble publishes exactly the three bytes 0x00, k mod 256, k div 256; in
particular 0 g gives 00 00 00, 25 g gives 00 05 00 and 1000 g gives 00 C8 00. -/
theorem C2_multiples_of_five (k : Nat) (hk : k ≤ 65535) :
    prepare_weight_for_ble (5 * (k : Int)) =
      [Event.setValue [0x00, k % 256, k / 256], Event.notify] ∧
    prepare_weight_for_ble 0 = [Event.setValue [0x00, 0x00, 0x00], Event.notify] ∧
    prepare_weight_for_ble 25 = [Event.setValue [0x00, 0x05, 0x00], Event.notify] ∧
    prepare_weight_for_ble 1000 = [Event.setValue [0x00, 0xC8, 0x00], Event.notify] := by
  have hdiv : (5 * (k : Int)) / 5 = (k : Int) := by omega
  have hv : newVal (5 * (k : Int)) = k := by
    rw [newVal_of_nonneg (by omega) (by omega), hdiv]
    exact Int.toNat_natCast k
  refine ⟨?_, ?_, ?_, ?_⟩
  · simp only [prepare_weight_for_ble, bytes_eq, hv]
  · with_unfolding_all decide
  · with_unfolding_all decide
  · with_unfolding_all decide

/-- Witness of C2 at k = 200, the weight 1000 g. -/
theorem C2_multiples_of_five_witness :
    (200 : Nat) ≤ 65535 ∧
    prepare_weight_for_ble (5 * ((200 : Nat) : Int)) =
      [Event.setValue [0x00, 200 % 256, 200 / 256], Event.notify] :=
  ⟨by decide, (C2_multiples_of_five 200 (by decide)).1⟩

/-- C3: for a non-negative weight whose unit count fits in 16 bits, the payload handed to
setValue has exactly 3 bytes, byte 0 is 0x00, and bytes 1 and 2 are the low and the high byte
of the 16-bit unit value newVal, so that byte1 + 256 * byte2 = newVal; the payload is
followed by one notify. -/
theorem C3_payload_layout (w : Int) (h0 : 0 ≤ w) (h1 : w / 5 ≤ 65535) :
    prepare_weight_for_ble w =
      [Event.setValue [0x00, newVal w % 256, newVal w / 256], Event.notify] ∧
    [0x00, newVal w % 256, newVal w / 256].length = 3 ∧
    newVal w % 256 + 256 * (newVal w / 256) = newVal w ∧
    newVal w / 256 < 256 ∧
    (newVal w : Int) = w / 5 := by
  have hlt := newVal_lt w
  have hq : 0 ≤ w / 5 := Int.ediv_nonneg h0 (by norm_num)
  refine ⟨?_, rfl, ?_, ?_, ?_⟩
  · simp only [prepare_weight_for_ble, bytes_eq]
  · omega
  · omega
  · rw [newVal_of_nonneg h0 h1]
    exact Int.toNat_of_nonneg hq

/-- Witness of C3 at the weight 1000 g. -/
theorem C3_payload_layout_witness :
    (0 : Int) ≤ 1000 ∧ (1000 : Int) / 5 ≤ 65535 ∧
    prepare_weight_for_ble 1000 =
      [Event.setValue [0x00, newVal 1000 % 256, newVal 1000 / 256], Event.notify] :=
  ⟨by decide, by decide, (C3_payload_layout 1000 (by decide) (by decide)).1⟩

/-- C10: for a non-negative weight w with floor(w) at most 327679, the float is truncated to
the long parameter floor(w), and the unit written is floor(floor(w) / 5); the decoded weight
5 * unit satisfies w - 5 < 5 * unit and 5 * unit ≤ w. -/
theorem C10_unit_is_floor_of_floor (w : ℚ) (h0 : 0 ≤ w) (h1 : ⌊w⌋ ≤ 327679) :
    floatToLong w = ⌊w⌋ ∧
    (newVal (floatToLong w) : Int) = ⌊w⌋ / 5 ∧
    w - 5 < ((5 * newVal (floatToLong w) : Nat) : ℚ) ∧
    ((5 * newVal (floatToLong w) : Nat) : ℚ) ≤ w ∧
    decode ((bytes (floatToLong w)).take sizeofBytes) = 5 * newVal (floatToLong w) := by
  have hfl : floatToLong w = ⌊w⌋ := truncate_of_nonneg h0
  have hf0 : 0 ≤ ⌊w⌋ := Int.floor_nonneg.mpr h0
  have hq0 : 0 ≤ ⌊w⌋ / 5 := Int.ediv_nonneg hf0 (by norm_num)
  have hv : (newVal (floatToLong w) : Int) = ⌊w⌋ / 5 := by
    rw [hfl, newVal_of_nonneg hf0 (by omega)]
    exact Int.toNat_of_nonneg hq0
  have hle : ((⌊w⌋ : Int) : ℚ) ≤ w := Int.floor_le w
  have hlt : w < ((⌊w⌋ : Int) : ℚ) + 1 := Int.lt_floor_add_one w
  have hlo : 5 * (newVal (floatToLong w) : Int) ≤ ⌊w⌋ := by omega
  have hhi : ⌊w⌋ + 1 ≤ 5 * (newVal (floatToLong w) : Int) + 5 := by omega
  have hloq : (5 * (newVal (floatToLong w) : ℚ)) ≤ ((⌊w⌋ : Int) : ℚ) := by exact_mod_cast hlo
  have hhiq : ((⌊w⌋ : Int) : ℚ) + 1 ≤ 5 * (newVal (floatToLong w) : ℚ) + 5 := by
    exact_mod_cast hhi
  refine ⟨hfl, hv, ?_, ?_, ?_⟩
  · push_cast; linarith
  · push_cast; linarith
  · have hb := newVal_lt (floatToLong w)
    rw [bytes_eq]
    simp only [decode, List.getD_cons_succ, List.getD_cons_zero]
    omega

/-- Witness of C10 at the weight 23 g: the unit written is 23 / 5 = 4. -/
theorem C10_unit_is_floor_of_floor_witness :
    (0 : ℚ) ≤ 23 ∧ ⌊(23 : ℚ)⌋ ≤ 327679 ∧ (newVal (floatToLong 23) : Int) = ⌊(23 : ℚ)⌋ / 5 :=
  ⟨by norm_num, by with_unfolding_all decide,
    (C10_unit_is_floor_of_floor 23 (by norm_num) (by with_unfolding_all decide)).2.1⟩

/-! ## Lemmas on the sensor filter and the driver tick -/

theorem get_weigh_deviceConnected (s : State) (lc : LoadCell) :
    (get_weigh s lc).1.deviceConnected = s.deviceConnected := by
  unfold get_weigh
  cases hu : lc.update <;> cases hf : s.newDataReady <;> simp [hf]

theorem get_weigh_oldDeviceConnected (s : State) (lc : LoadCell) :
    (get_weigh s lc).1.oldDeviceConnected = s.oldDeviceConnected := by
  unfold get_weigh
  cases hu : lc.update <;> cases hf : s.newDataReady <;> simp [hf]

theorem get_weigh_newDataReady (s : State) (lc : LoadCell) :
    (get_weigh s lc).1.newDataReady = false := by
  unfold get_weigh
  cases hu : lc.update <;> cases hf : s.newDataReady <;> simp [hf]

theorem get_weigh_stored (s : State) (lc : LoadCell) :
    (get_weigh s lc).1.newWeigh = (get_weigh s lc).2 := by
  unfold get_weigh
  cases hu : lc.update <;> cases hf : s.newDataReady <;> simp [hf]

theorem get_weigh_new (s : State) (r : ℚ) :
    get_weigh s { update := true, getData := r } =
      ({ s with newWeigh := gate r, newDataReady := false }, gate r) := by
  simp [get_weigh, gate, fabs_eq_abs]

theorem get_weigh_hold (s : State) (h : s.newDataReady = false) (d : ℚ) :
    get_weigh s { update := false, getData := d } = (s, s.newWeigh) := by
  simp [get_weigh, h]

theorem get_weigh_calls_hold (s : State) (h : s.newDataReady = false) (ds : List ℚ) :
    get_weigh_calls s (ds.map fun d => { update := false, getData := d }) =
      (s, ds.map fun _ => s.newWeigh) := by
  induction ds with
  | nil => rfl
  | cons d ds ih => simp [get_weigh_calls, get_weigh_hold s h, ih]

theorem loop_weightData (s : State) (lc : LoadCell) :
    (loop s lc).weightData = (get_weigh s lc).2 := rfl

theorem loop_deviceConnected (s : State) (lc : LoadCell) :
    (loop s lc).state.deviceConnected = s.deviceConnected := by
  have h1 := get_weigh_deviceConnected s lc
  have h2 := get_weigh_oldDeviceConnected s lc
  unfold loop
  cases hd : s.deviceConnected <;> cases ho : s.oldDeviceConnected <;>
    simp [h1, h2, hd, ho]

theorem loop_oldDeviceConnected (s : State) (lc : LoadCell) :
    (loop s lc).state.oldDeviceConnected = s.deviceConnected := by
  have h1 := get_weigh_deviceConnected s lc
  have h2 := get_weigh_oldDeviceConnected s lc
  unfold loop
  cases hd : s.deviceConnected <;> cases ho : s.oldDeviceConnected <;>
    simp [h1, h2, hd, ho]

theorem loop_newDataReady (s : State) (lc : LoadCell) :
    (loop s lc).state.newDataReady = false := by
  have h1 := get_weigh_deviceConnected s lc
  have h2 := get_weigh_oldDeviceConnected s lc
  have h3 := get_weigh_newDataReady s lc
  unfold loop
  cases hd : s.deviceConnected <;> cases ho : s.oldDeviceConnected <;>
    simp [h1, h2, h3, hd, ho]

theorem loop_newWeigh (s : State) (lc : LoadCell) :
    (loop s lc).state.newWeigh = (get_weigh s lc).2 := by
  have h1 := get_weigh_deviceConnected s lc
  have h2 := get_weigh_oldDeviceConnected s lc
  have h3 := get_weigh_stored s lc
  unfold loop
  cases hd : s.deviceConnected <;> cases ho : s.oldDeviceConnected <;>
    simp [h1, h2, h3, hd, ho]

theorem loop_disconnecting (s : State) (lc : LoadCell) :
    (loop s lc).disconnecting = (!s.deviceConnected && s.oldDeviceConnected) := by
  simp [loop, get_weigh_deviceConnected, get_weigh_oldDeviceConnected]

theorem loop_connecting (s : State) (lc : LoadCell) :
    (loop s lc).connecting = (s.deviceConnected && !s.oldDeviceConnected) := by
  have h1 := get_weigh_deviceConnected s lc
  have h2 := get_weigh_oldDeviceConnected s lc
  unfold loop
  cases hd : s.deviceConnected <;> cases ho : s.oldDeviceConnected <;>
    simp [h1, h2, hd, ho]

theorem loop_events (s : State) (lc : LoadCell) :
    (loop s lc).events =
      (if s.deviceConnected then
          [Event.setValue (encode (get_weigh s lc).2), Event.notify] else []) ++
      (if (!s.deviceConnected && s.oldDeviceConnected) then
          [Event.delay 500, Event.startAdvertising, Event.println "Start advertising...\n"]
        else []) ++
      [Event.delay 10] := by
  simp [loop, get_weigh_deviceConnected, get_weigh_oldDeviceConnected, encode,
    prepare_weight_for_ble]

theorem published_loop (s : State) (lc : LoadCell) :
    published (loop s lc).events =
      if s.deviceConnected then
        [Event.setValue (encode (get_weigh s lc).2), Event.notify] else [] := by
  rw [loop_events]
  cases hd : s.deviceConnected <;> cases ho : s.oldDeviceConnected <;>
    simp [published, isPublish]

theorem encode_neg (w : ℚ) : encode (-w) = encode w := by
  simp [encode, fabs_neg]

theorem get_weigh_negated (s : State) (lc : LoadCell) :
    (get_weigh { s with newWeigh := -s.newWeigh }
        { update := lc.update, getData := -lc.getData }).2 = -(get_weigh s lc).2 := by
  unfold get_weigh
  cases hu : lc.update <;> cases hf : s.newDataReady <;> simp [hf, fabs_neg] <;>
    split_ifs <;> simp

theorem run_newDataReady (steps : List Step) :
    ∀ s : State, s.newDataReady = false → (run s steps).newDataReady = false := by
  induction steps with
  | nil => intro s h; exact h
  | cons st rest ih =>
    intro s h
    cases st with
    | onConnect => exact ih _ h
    | onDisconnect => exact ih _ h
    | loop lc => exact ih _ (loop_newDataReady s lc)

/-! ## Sensor filter -/

/-- C6: when the load cell delivers a raw reading r as new data, the value get_weigh stores
and returns is exactly 0 if |r| < 20 and r itself if |r| ≥ 20, whatever the state before the
call (no hysteresis); the readings 20 and -20 are kept. -/
theorem C6_noise_gate (s : State) (r : ℚ) :
    (get_weigh s { update := true, getData := r }).2 = (if |r| < 20 then 0 else r) ∧
    (get_weigh s { update := true, getData := r }).1.newWeigh = (if |r| < 20 then 0 else r) ∧
    (∀ s0 : State, (get_weigh s0 { update := true, getData := r }).2 =
        (get_weigh s { update := true, getData := r }).2) ∧
    (get_weigh s { update := true, getData := 20 }).2 = 20 ∧
    (get_weigh s { update := true, getData := -20 }).2 = -20 ∧
    (loop s { update := true, getData := r }).weightData = (if |r| < 20 then 0 else r) := by
  refine ⟨?_, ?_, ?_, ?_, ?_, ?_⟩
  · rw [get_weigh_new]; rfl
  · rw [get_weigh_new]; rfl
  · intro s0; rw [get_weigh_new, get_weigh_new]
  · rw [get_weigh_new]; norm_num [gate]
  · rw [get_weigh_new]; norm_num [gate]
  · rw [loop_weightData, get_weigh_new]; rfl

/-- C9: in a filter state with newDataReady false, a call of get_weigh in which update()
answers false returns the stored FilteredWeight and leaves the state unchanged, whatever
getData would answer; any number of consecutive such calls return that same value; and
newDataReady is false on exit from every call and in every state a run from the initial
state reaches, hence on entry to every call. -/
theorem C9_filter_hold (s : State) (h : s.newDataReady = false) (d : ℚ) (ds : List ℚ) :
    get_weigh s { update := false, getData := d } = (s, s.newWeigh) ∧
    get_weigh_calls s (ds.map fun x => { update := false, getData := x }) =
      (s, ds.map fun _ => s.newWeigh) ∧
    (∀ (s0 : State) (lc : LoadCell) (x : ℚ),
      get_weigh (get_weigh s0 lc).1 { update := false, getData := x } =
        ((get_weigh s0 lc).1, (get_weigh s0 lc).2)) ∧
    (∀ (s0 : State) (lc : LoadCell), (get_weigh s0 lc).1.newDataReady = false) ∧
    (∀ steps : List Step, (run initial steps).newDataReady = false) ∧
    (∀ (steps : List Step) (x : ℚ),
      get_weigh (run initial steps) { update := false, getData := x } =
        (run initial steps, (run initial steps).newWeigh)) := by
  refine ⟨get_weigh_hold s h d, get_weigh_calls_hold s h ds, ?_, get_weigh_newDataReady, ?_, ?_⟩
  · intro s0 lc x
    rw [get_weigh_hold _ (get_weigh_newDataReady s0 lc), get_weigh_stored]
  · intro steps
    exact run_newDataReady steps initial rfl
  · intro steps x
    exact get_weigh_hold _ (run_newDataReady steps initial rfl) x

/-- Witness of C9 in the initial state, with three consecutive calls without new data. -/
theorem C9_filter_hold_witness :
    initial.newDataReady = false ∧
    get_weigh initial { update := false, getData := 7 } = (initial, initial.newWeigh) ∧
    get_weigh_calls initial
        ([1, 2, 3].map fun x => { update := false, getData := x }) =
      (initial, [1, 2, 3].map fun _ => initial.newWeigh) :=
  ⟨rfl, (C9_filter_hold initial rfl 7 [1, 2, 3]).1, (C9_filter_hold initial rfl 7 [1, 2, 3]).2.1⟩

/-! ## Notification driver -/

/-- C4: a tick in which deviceConnected is true publishes exactly one payload, setValue
followed by notify, and the payload is the encoding of the absolute value of the weight
get_weigh returned in that tick; a tick in which it is false publishes nothing. The next
tick publishes again even when nothing changed, and negating the filtered weight leaves the
published payload unchanged. -/
theorem C4_publish_every_connected_tick (s : State) (lc : LoadCell) :
    published (loop s lc).events =
      (if s.deviceConnected then
        [Event.setValue ((bytes (floatToLong (fabs (loop s lc).weightData))).take sizeofBytes),
          Event.notify]
       else []) ∧
    (loop s lc).weightData = (get_weigh s lc).2 ∧
    (∀ x : ℚ, published (loop (loop s lc).state { update := false, getData := x }).events =
        published (loop s lc).events) ∧
    (∀ w : ℚ, encode (-w) = encode w) ∧
    published (loop { s with newWeigh := -s.newWeigh }
        { update := lc.update, getData := -lc.getData }).events =
      published (loop s lc).events := by
  refine ⟨?_, rfl, ?_, encode_neg, ?_⟩
  · rw [published_loop]; rfl
  · intro x
    rw [published_loop, published_loop, loop_deviceConnected,
      get_weigh_hold _ (loop_newDataReady s lc), loop_newWeigh]
  · rw [published_loop, published_loop, get_weigh_negated, encode_neg]

/-! ## Re-advertising -/

theorem flags_signal_tick (s : State) (h : s.oldDeviceConnected = s.deviceConnected)
    (g : Signal) (lc : LoadCell) (rest : List Step) :
    edgeFlags (exec s (g.toStep :: Step.loop lc :: rest)) =
      (decide (g = Signal.attach) != s.deviceConnected) ::
        edgeFlags (exec (loop (stepRecord s g.toStep).post lc).state rest) ∧
    oldUpdatedFlags (exec s (g.toStep :: Step.loop lc :: rest)) =
      (decide (g = Signal.attach) != s.deviceConnected) ::
        oldUpdatedFlags (exec (loop (stepRecord s g.toStep).post lc).state rest) ∧
    levelChangedFlags (exec s (g.toStep :: Step.loop lc :: rest)) =
      (decide (g = Signal.attach) != s.deviceConnected) ::
        levelChangedFlags (exec (loop (stepRecord s g.toStep).post lc).state rest) ∧
    levelsAfterSignals (exec s (g.toStep :: Step.loop lc :: rest)) =
      decide (g = Signal.attach) ::
        levelsAfterSignals (exec (loop (stepRecord s g.toStep).post lc).state rest) := by
  cases g <;> cases hd : s.deviceConnected <;>
    simp [exec, stepRecord, Signal.toStep, edgeFlags, oldUpdatedFlags, levelChangedFlags,
      levelsAfterSignals, onConnect, onDisconnect, loop_disconnecting, loop_connecting,
      loop_oldDeviceConnected, h, hd]

theorem edges_eq_changes (sigs : List (Signal × LoadCell)) :
    ∀ s : State, s.oldDeviceConnected = s.deviceConnected →
      edgeFlags (exec s (tickAfterEach sigs)) = levelChangedFlags (exec s (tickAfterEach sigs)) ∧
      oldUpdatedFlags (exec s (tickAfterEach sigs)) =
        levelChangedFlags (exec s (tickAfterEach sigs)) := by
  induction sigs with
  | nil => intro s _; exact ⟨rfl, rfl⟩
  | cons p rest ih =>
    intro s h
    obtain ⟨g, lc⟩ := p
    have hf := flags_signal_tick s h g lc (tickAfterEach rest)
    have hi := ih (loop (stepRecord s g.toStep).post lc).state
      (by rw [loop_oldDeviceConnected, loop_deviceConnected])
    simp only [tickAfterEach]
    rw [hf.1, hf.2.1, hf.2.2.1, hi.1, hi.2]
    exact ⟨rfl, rfl⟩

theorem edgeFlags_length (sigs : List (Signal × LoadCell)) :
    ∀ s : State, s.oldDeviceConnected = s.deviceConnected →
      (edgeFlags (exec s (tickAfterEach sigs))).length = sigs.length := by
  induction sigs with
  | nil => intro s _; rfl
  | cons p rest ih =>
    intro s h
    obtain ⟨g, lc⟩ := p
    have hf := flags_signal_tick s h g lc (tickAfterEach rest)
    have hi := ih (loop (stepRecord s g.toStep).post lc).state
      (by rw [loop_oldDeviceConnected, loop_deviceConnected])
    simp only [tickAfterEach]
    rw [hf.1, List.length_cons, hi, List.length_cons]

theorem exec_append (a b : List Step) :
    ∀ s : State, exec s (a ++ b) = exec s a ++ exec (run s a) b := by
  induction a with
  | nil => intro s; rfl
  | cons st rest ih => intro s; simp [exec, run, ih]

theorem tickAfterEach_append (a b : List (Signal × LoadCell)) :
    tickAfterEach (a ++ b) = tickAfterEach a ++ tickAfterEach b := by
  induction a with
  | nil => rfl
  | cons p rest ih => obtain ⟨g, lc⟩ := p; simp [tickAfterEach, ih]

theorem run_tickAfterEach_old (sigs : List (Signal × LoadCell)) :
    ∀ s : State, s.oldDeviceConnected = s.deviceConnected →
      (run s (tickAfterEach sigs)).oldDeviceConnected =
        (run s (tickAfterEach sigs)).deviceConnected := by
  induction sigs with
  | nil => intro s h; exact h
  | cons p rest ih =>
    intro s _
    obtain ⟨g, lc⟩ := p
    simp only [tickAfterEach, run]
    apply ih
    simp only [stepRecord]
    rw [loop_oldDeviceConnected, loop_deviceConnected]

theorem repeated_signal (s : State) (h : s.oldDeviceConnected = s.deviceConnected)
    (g : Signal) (l1 l2 : LoadCell) :
    levelChangedFlags (exec s (tickAfterEach [(g, l1), (g, l2)])) =
      [decide (g = Signal.attach) != s.deviceConnected, false] ∧
    edgeFlags (exec s (tickAfterEach [(g, l1), (g, l2)])) =
      [decide (g = Signal.attach) != s.deviceConnected, false] := by
  cases g <;> cases hd : s.deviceConnected <;>
    simp [tickAfterEach, exec, stepRecord, Signal.toStep, edgeFlags, levelChangedFlags,
      onConnect, onDisconnect, loop_disconnecting, loop_connecting,
      loop_oldDeviceConnected, loop_deviceConnected, h, hd]

/-- C7: starting from the initial state and running one tick after each signal, the i-th tick
observes an edge (takes the connecting or the disconnecting branch, and changes
oldDeviceConnected) exactly when the i-th signal changed deviceConnected; a signal repeating
the one before it changes nothing and the tick after it observes no edge; for attach, attach,
detach, detach, attach the ticks observe edges after the first, third and fifth signal only,
at the levels true, false and true. -/
theorem C7_edges_follow_level_changes (sigs : List (Signal × LoadCell)) :
    edgeFlags (exec initial (tickAfterEach sigs)) =
      levelChangedFlags (exec initial (tickAfterEach sigs)) ∧
    oldUpdatedFlags (exec initial (tickAfterEach sigs)) =
      edgeFlags (exec initial (tickAfterEach sigs)) ∧
    (edgeFlags (exec initial (tickAfterEach sigs))).length = sigs.length ∧
    (∀ (g : Signal) (l1 l2 : LoadCell),
      (levelChangedFlags (exec initial (tickAfterEach (sigs ++ [(g, l1), (g, l2)])))).getLast? =
        some false ∧
      (edgeFlags (exec initial (tickAfterEach (sigs ++ [(g, l1), (g, l2)])))).getLast? =
        some false) ∧
    (∀ l1 l2 l3 l4 l5 : LoadCell,
      edgeFlags (exec initial (tickAfterEach [(Signal.attach, l1), (Signal.attach, l2),
        (Signal.detach, l3), (Signal.detach, l4), (Signal.attach, l5)])) =
        [true, false, true, false, true] ∧
      levelsAfterSignals (exec initial (tickAfterEach [(Signal.attach, l1), (Signal.attach, l2),
        (Signal.detach, l3), (Signal.detach, l4), (Signal.attach, l5)])) =
        [true, true, false, false, true]) := by
  have hmain := edges_eq_changes sigs initial rfl
  refine ⟨hmain.1, by rw [hmain.1, hmain.2], edgeFlags_length sigs initial rfl, ?_, ?_⟩
  · intro g l1 l2
    have hr := repeated_signal (run initial (tickAfterEach sigs))
      (run_tickAfterEach_old sigs initial rfl) g l1 l2
    rw [tickAfterEach_append, exec_append]
    simp only [levelChangedFlags, edgeFlags] at hr ⊢
    rw [List.filterMap_append, List.filterMap_append, hr.1, hr.2]
    simp
  · intro l1 l2 l3 l4 l5
    simp [tickAfterEach, exec, stepRecord, Signal.toStep, edgeFlags, levelsAfterSignals,
      onConnect, onDisconnect, loop_disconnecting, loop_connecting,
      loop_oldDeviceConnected, loop_deviceConnected, initial]

/-! ## End-to-end scenario -/

theorem trace_nil (s : State) : trace s [] = [] := rfl

theorem trace_onConnect (s : State) (rest : List Step) :
    trace s (Step.onConnect :: rest) = trace (onConnect s) rest := by
  simp [trace, exec, stepRecord]

theorem trace_onDisconnect (s : State) (rest : List Step) :
    trace s (Step.onDisconnect :: rest) = trace (onDisconnect s) rest := by
  simp [trace, exec, stepRecord]

theorem trace_loop (s : State) (lc : LoadCell) (rest : List Step) :
    trace s (Step.loop lc :: rest) = (loop s lc).events ++ trace (loop s lc).state rest := by
  simp [trace, exec, stepRecord]

theorem weights_loop (s : State) (lc : LoadCell) (rest : List Step) :
    weights s (Step.loop lc :: rest) = (loop s lc).weightData :: weights (loop s lc).state rest := by
  simp [weights, exec, stepRecord]

theorem weights_onConnect (s : State) (rest : List Step) :
    weights s (Step.onConnect :: rest) = weights (onConnect s) rest := by
  simp [weights, exec, stepRecord]

theorem weights_readings (rs : List ℚ) :
    ∀ s : State, weights s (rs.map tickWithReading) = rs.map gate := by
  induction rs with
  | nil => intro s; rfl
  | cons r rest ih =>
    intro s
    simp only [List.map_cons, tickWithReading] at ih ⊢
    rw [weights_loop, ih, loop_weightData, get_weigh_new]

theorem trace_connected (rs : List ℚ) (tail : List Step) :
    ∀ s : State, s.deviceConnected = true →
      trace s (rs.map tickWithReading ++ tail) =
        (rs.flatMap fun r => [Event.setValue (encode (gate r)), Event.notify, Event.delay 10]) ++
          trace (run s (rs.map tickWithReading)) tail := by
  induction rs with
  | nil => intro s _; rfl
  | cons r rest ih =>
    intro s h
    have h1 : (loop s { update := true, getData := r }).state.deviceConnected = true := by
      rw [loop_deviceConnected]; exact h
    simp only [List.map_cons, tickWithReading, List.cons_append, List.flatMap_cons, run,
      stepRecord] at ih ⊢
    rw [trace_loop, ih _ h1, loop_events, get_weigh_new]
    simp [h]

theorem run_connected (rs : List ℚ) :
    ∀ s : State, s.deviceConnected = true →
      (run s (rs.map tickWithReading)).deviceConnected = true ∧
      (rs ≠ [] → (run s (rs.map tickWithReading)).oldDeviceConnected = true) := by
  induction rs with
  | nil => intro s h; exact ⟨h, fun hne => absurd rfl hne⟩
  | cons r rest ih =>
    intro s h
    have h1 : (loop s { update := true, getData := r }).state.deviceConnected = true := by
      rw [loop_deviceConnected]; exact h
    have h2 : (loop s { update := true, getData := r }).state.oldDeviceConnected = true := by
      rw [loop_oldDeviceConnected]; exact h
    simp only [List.map_cons, tickWithReading, run, stepRecord] at ih ⊢
    refine ⟨(ih _ h1).1, fun _ => ?_⟩
    cases rest with
    | nil => exact h2
    | cons r1 rest1 => exact (ih _ h1).2 (List.cons_ne_nil _ _)

theorem trace_idle (after : List LoadCell) :
    ∀ s : State, s.deviceConnected = false → s.oldDeviceConnected = false →
      trace s (after.map Step.loop) = after.flatMap fun _ => [Event.delay 10] := by
  induction after with
  | nil => intro s _ _; rfl
  | cons lc rest ih =>
    intro s hd ho
    simp only [List.map_cons, List.flatMap_cons]
    rw [trace_loop, ih _ (by rw [loop_deviceConnected]; exact hd)
      (by rw [loop_oldDeviceConnected]; exact hd), loop_events]
    simp [hd, ho]

theorem trace_detached (after : List LoadCell) (hm : after ≠ []) :
    ∀ s : State, s.deviceConnected = false → s.oldDeviceConnected = true →
      trace s (after.map Step.loop) =
        [Event.delay 500, Event.startAdvertising, Event.println "Start advertising...\n",
          Event.delay 10] ++ after.tail.flatMap fun _ => [Event.delay 10] := by
  intro s hd ho
  cases after with
  | nil => exact absurd rfl hm
  | cons lc rest =>
    simp only [List.map_cons, List.tail_cons]
    rw [trace_loop, trace_idle rest _ (by rw [loop_deviceConnected]; exact hd)
      (by rw [loop_oldDeviceConnected]; exact hd), loop_events]
    simp [hd, ho]

theorem trace_scenario (rs : List ℚ) (after : List LoadCell) (hn : rs ≠ []) (hm : after ≠ []) :
    trace initial (scenario rs after) =
      (rs.flatMap fun r => [Event.setValue (encode (gate r)), Event.notify, Event.delay 10]) ++
      ([Event.delay 500, Event.startAdvertising, Event.println "Start advertising...\n",
          Event.delay 10] ++ after.tail.flatMap fun _ => [Event.delay 10]) := by
  have hc : (onConnect initial).deviceConnected = true := rfl
  have hr := run_connected rs (onConnect initial) hc
  unfold scenario
  rw [trace_onConnect, trace_connected rs _ _ hc, trace_onDisconnect,
    trace_detached after hm _ rfl (by simpa [onDisconnect] using hr.2 hn)]


theorem weights_append (a b : List Step) (s : State) :
    weights s (a ++ b) = weights s a ++ weights (run s a) b := by
  simp [weights, exec_append]

theorem published_readings (rs : List ℚ) (tail : List Event) :
    published ((rs.flatMap fun r =>
        [Event.setValue (encode (gate r)), Event.notify, Event.delay 10]) ++ tail) =
      (rs.flatMap fun r => [Event.setValue (encode (gate r)), Event.notify]) ++
        published tail := by
  induction rs with
  | nil => rfl
  | cons r rest ih =>
    simp only [List.flatMap_cons, List.append_assoc, List.cons_append, List.nil_append]
    simp only [published] at ih ⊢
    simp [List.filter_cons, isPublish, ih]

theorem published_delays (after : List LoadCell) :
    published (after.flatMap fun _ => [Event.delay 10]) = [] := by
  induction after with
  | nil => rfl
  | cons lc rest ih =>
    simp only [published] at ih ⊢
    simp [List.filter_cons, isPublish, ih]

theorem count_readings (rs : List ℚ) :
    (rs.flatMap fun r =>
        [Event.setValue (encode (gate r)), Event.notify, Event.delay 10]).count
      Event.startAdvertising = 0 := by
  induction rs with
  | nil => rfl
  | cons r rest ih => simp [List.flatMap_cons, List.count_cons, ih]

theorem count_delays (after : List LoadCell) :
    (after.flatMap fun _ => [Event.delay 10]).count Event.startAdvertising = 0 := by
  induction after with
  | nil => rfl
  | cons lc rest ih => simp [List.flatMap_cons, List.count_cons, ih]

/-- C8, amended with at least one tick between the attach and the detach: from the initial
state, after an attach signal, one tick per raw reading r_i delivered as new data (at least
one), a detach signal and at least one further tick with no signal, the FilteredWeight
sequence of the first ticks is gate(r_1), ..., gate(r_n); the events are, per reading, the
payload encoding |gate(r_i)|, notify and the 10 ms delay, then in the first tick after the
detach the 500 ms delay followed by the single startAdvertising call, and nothing but the
10 ms delay in the later ticks. For the readings 5, 8, 50, 52 the filtered weights are
0, 0, 50, 52 and the payloads 00 00 00, 00 00 00, 00 0A 00, 00 0A 00. -/
theorem C8_end_to_end (rs : List ℚ) (after : List LoadCell) (hn : rs ≠ []) (hm : after ≠ []) :
    (weights initial (scenario rs after)).take rs.length = rs.map gate ∧
    trace initial (scenario rs after) =
      (rs.flatMap fun r => [Event.setValue (encode (gate r)), Event.notify, Event.delay 10]) ++
      ([Event.delay 500, Event.startAdvertising, Event.println "Start advertising...\n",
          Event.delay 10] ++ after.tail.flatMap fun _ => [Event.delay 10]) ∧
    published (trace initial (scenario rs after)) =
      (rs.flatMap fun r => [Event.setValue (encode (gate r)), Event.notify]) ∧
    advertiseCalls initial (scenario rs after) = 1 ∧
    [(5 : ℚ), 8, 50, 52].map gate = [0, 0, 50, 52] ∧
    ([(5 : ℚ), 8, 50, 52].flatMap fun r => [Event.setValue (encode (gate r)), Event.notify]) =
      [Event.setValue [0x00, 0x00, 0x00], Event.notify,
        Event.setValue [0x00, 0x00, 0x00], Event.notify,
        Event.setValue [0x00, 0x0A, 0x00], Event.notify,
        Event.setValue [0x00, 0x0A, 0x00], Event.notify] := by
  have ht := trace_scenario rs after hn hm
  refine ⟨?_, ht, ?_, ?_, ?_, ?_⟩
  · have hw : weights initial (scenario rs after) =
        rs.map gate ++
          weights (run (onConnect initial) (rs.map tickWithReading))
            (Step.onDisconnect :: after.map Step.loop) := by
      unfold scenario
      rw [weights_onConnect, weights_append, weights_readings]
    rw [hw]
    have hl : rs.length = (rs.map gate).length := by simp
    rw [hl, List.take_left']
    rfl
  · rw [ht, published_readings]
    have h := published_delays after.tail
    simp only [published] at h ⊢
    simp [List.filter_cons, isPublish, h]
  · unfold advertiseCalls
    rw [ht, List.count_append, List.count_append, count_readings, count_delays]
    simp [List.count_cons]
  · with_unfolding_all decide
  · with_unfolding_all decide

/-- Witness of C8 on the readings 5, 8, 50, 52 with one tick after the detach. -/
theorem C8_end_to_end_witness :
    [(5 : ℚ), 8, 50, 52] ≠ [] ∧ [({ update := false, getData := 52 } : LoadCell)] ≠ [] ∧
    (weights initial (scenario [5, 8, 50, 52] [{ update := false, getData := 52 }])).take
        [(5 : ℚ), 8, 50, 52].length = [(5 : ℚ), 8, 50, 52].map gate ∧
    advertiseCalls initial (scenario [5, 8, 50, 52] [{ update := false, getData := 52 }]) = 1 :=
  ⟨by simp, by simp,
    (C8_end_to_end [5, 8, 50, 52] [{ update := false, getData := 52 }] (by simp) (by simp)).1,
    (C8_end_to_end [5, 8, 50, 52] [{ update := false, getData := 52 }]
      (by simp) (by simp)).2.2.2.1⟩

/-- C8 as stated fails for n = 0: when the detach follows the attach with no tick in
between, the later ticks (here two) never call startAdvertising; they only wait 10 ms. -/
theorem C8_counterexample :
    advertiseCalls initial
      (scenario [] [{ update := false, getData := 0 }, { update := false, getData := 0 }]) = 0 ∧
    trace initial
      (scenario [] [{ update := false, getData := 0 }, { update := false, getData := 0 }]) =
      [Event.delay 10, Event.delay 10] := by
  with_unfolding_all decide

end WeightScale
